import Mathlib

/-!
Shallow embedding of the k8s-cc-manager reconciliation core.

Sources embedded here:
* `cc-manager.sh` (the mode-reconciliation script): string transforms
  `_maybe_set_paused` / `_maybe_set_true`, the eviction/reschedule label
  updates, the per-device applier `set_gpu_cc_mode`, the all-devices cycle
  `set_cc_mode`, and `get_cc_mode`.
* `cmd/main.go`: the `SyncableCCModeConfig` watcher (Set/Get) and the
  startup logic of `start`.

Strings manipulated by the shell (label values, mode tokens, bus ids) are
modeled as `List Char`, so that the sed/tr surgery of the script can be
stated and proved structurally.  External effects (kubectl invocations,
the gpu_cc_tool, sysfs writes) are modeled by a `World` record carrying
their outcomes, and each embedded function returns the ordered trace of
external events it performs.
-/

namespace CCManager

/-- Shell strings are modeled as lists of characters. -/
abbrev Str := List Char

/-- Coerce a Lean string literal to the `Str` representation. -/
def str (s : String) : Str := s.data

/-- The frozen paused marker, `PAUSED_STR="paused-for-cc-mode-change"`. -/
def pausedStr : Str := str "paused-for-cc-mode-change"

/-- Test whether the first list occurs at the very front of the second
(the prefix test used to locate marker occurrences). -/
def leadsWith : Str → Str → Bool
  | [], _ => true
  | _ :: _, [] => false
  | a :: as, b :: bs => a == b && leadsWith as bs

/-- Bash substring containment, `[[ $v == *"$pat"* ]]`. -/
def hasSub (pat : Str) : Str → Bool
  | [] => pat.isEmpty
  | c :: rest => leadsWith pat (c :: rest) || hasSub pat rest

/-- Fuel-driven worker for `stripAll`; the fuel only serves to make the
recursion structural, one unit being spent per removed occurrence or per
kept character, so any fuel of at least the length of the string yields
the same result (`stripAllGo_fuel`). -/
def stripAllGo : Nat → Str → Str → Str
  | _, _, [] => []
  | 0, _, s => s
  | fuel + 1, pat, c :: rest =>
    if pat ≠ [] ∧ leadsWith pat (c :: rest) then
      stripAllGo fuel pat ((c :: rest).drop pat.length)
    else
      c :: stripAllGo fuel pat rest

/-- Global removal of every (leftmost, non-overlapping) occurrence of a
pattern, the effect of `sed -r "s/${PAUSED_STR}//g"` on a literal pattern. -/
def stripAll (pat : Str) (s : Str) : Str := stripAllGo s.length pat s

/-- The effect of `tr -d "_"`: delete every underscore. -/
def delUnderscore (s : Str) : Str := s.filter (fun c => c ≠ '_')

/-- Embeds `_is_valid_mode` of cc-manager.sh: the closed set of mode
tokens accepted by the script. -/
def _is_valid_mode (mode : Str) : Bool :=
  mode == str "on" || mode == str "off" || mode == str "devtools"

/-- Embeds `_parse_mode` of cc-manager.sh.  The grep/sed/awk extraction of
the token from the tool's free-text output is modeled by the environment
handing over the extracted token (see `ToolOut.out`); this function
performs the validation step, returning `none` exactly when the script
would `return 1`. -/
def _parse_mode (token : Str) : Option Str :=
  if _is_valid_mode token then some token else none

/-- Embeds `_maybe_set_paused` of cc-manager.sh (the per-kind Pause
transform applied to a component deployment label). -/
def _maybe_set_paused (current_value : Str) : Str :=
  if current_value = [] then []
  else if current_value = str "false" then str "false"
  else if current_value = str "true" then pausedStr
  else if hasSub pausedStr current_value then current_value
  else current_value ++ '_' :: pausedStr

/-- Embeds `_maybe_set_true` of cc-manager.sh (the per-kind Resume
transform): `sed -r "s/${PAUSED_STR}//g" | tr -d "_"` in the final
branch. -/
def _maybe_set_true (current_value : Str) : Str :=
  if current_value = str "false" then str "false"
  else if current_value = pausedStr then str "true"
  else delUnderscore (stripAll pausedStr current_value)

example : _maybe_set_paused (str "true") = pausedStr := by decide
example : _maybe_set_true pausedStr = str "true" := by decide
example : _maybe_set_true (_maybe_set_paused (str "v1.0")) = str "v1.0" := by decide
example : _maybe_set_true (_maybe_set_paused (str "my_ver")) = str "myver" := by decide
example : _maybe_set_true (_maybe_set_paused pausedStr) = str "true" := by decide

/-- The five dependent GPU-operator component kinds managed by the
script (vfio-manager, vgpu-manager, sandbox-validator,
sandbox-device-plugin, vgpu-device-manager). -/
inductive Kind
  | vfioManager
  | vgpuManager
  | sandboxValidator
  | sandboxPlugin
  | vgpuDeviceManager
deriving DecidableEq

/-- One value per dependent component kind (the five
`nvidia.com/gpu.deploy.*` label values, or the five `kubectl wait`
outcomes). -/
structure KindMap (α : Type) where
  vfio : α
  vgpu : α
  sandboxValidator : α
  sandboxPlugin : α
  vgpuDeviceManager : α
deriving DecidableEq

/-- Look a kind up in a `KindMap`. -/
def KindMap.get {α : Type} (m : KindMap α) : Kind → α
  | .vfioManager => m.vfio
  | .vgpuManager => m.vgpu
  | .sandboxValidator => m.sandboxValidator
  | .sandboxPlugin => m.sandboxPlugin
  | .vgpuDeviceManager => m.vgpuDeviceManager

/-- Result of one invocation of the external `gpu_cc_tool.py` query:
either the invocation exits nonzero (`fail`), or it succeeds and the
grep/sed/awk extraction of `_parse_mode` would pull the given token out
of its output. -/
inductive ToolOut
  | fail
  | out (token : Str)
deriving DecidableEq

/-- One CC-capable GPU of the node together with the behavior of the
external operations on it: `queryRes` is what the query tool yields
while the device is in its pre-switch state, `unbindOk` whether the
sysfs unbind writes succeed, `setOk` whether the combined
set-and-reset tool invocation succeeds, and `queryAfter` what the
query tool yields after a successful set invocation. -/
structure Gpu where
  bdf : Str
  queryRes : ToolOut
  unbindOk : Bool
  setOk : Bool
  queryAfter : ToolOut
deriving DecidableEq

/-- External events performed by the script, in order: tool queries,
device unbinds, set-and-reset tool calls, the five-label pause and
resume updates (with the exit status of the kubectl invocation and the
values written), the per-kind `kubectl wait` calls, and writes of the
`nvidia.com/cc.mode.state` status label. -/
inductive Ev
  | queryTool (bdf : Str)
  | unbind (bdf : Str)
  | setTool (bdf : Str) (mode : Str)
  | labelPause (ok : Bool) (vals : KindMap Str)
  | waitPods (k : Kind)
  | labelResume (ok : Bool) (vals : KindMap Str)
  | labelStatus (v : Str) (ok : Bool)
deriving DecidableEq

/-- Terminal result of `set_cc_mode`: the function returns with the
given code, or the script exits (via `_exit_failed` or `exit 1`). -/
inductive Outcome
  | ret (code : Nat)
  | exited (code : Nat)
deriving DecidableEq

/-- Result of `_assert_gpu_cc_mode`: the mode matched (`ok`), the parse
failed or the mode differed (`no`, the script's `return 1`), or the
query tool invocation itself failed, upon which the script calls
`_exit_failed` (`exitFailed`). -/
inductive ARes
  | ok
  | no
  | exitFailed
deriving DecidableEq

/-- Result of `set_gpu_cc_mode`: success (`ok`), `return 1`
(`retFail`: set tool failure, or reassert parse failure or mismatch),
or an exit raised inside the nested `_assert_gpu_cc_mode`
(`exitFailed`). -/
inductive DRes
  | ok
  | retFail
  | exitFailed
deriving DecidableEq

/-- The environment one `set-cc-mode --all` run of cc-manager.sh
operates in: the CC-capable GPUs found by discovery, the requested
`CC_MODE`, the five deployment label values fetched by
`_fetch_current_labels`, the exit statuses of the pause / resume /
status `kubectl label` invocations, and per kind whether the
`kubectl wait --for=delete --timeout=5m` saw the workload vacate in
time (its exit status; the script never tests this status). -/
structure World where
  gpus : List Gpu
  ccMode : Str
  deployed : KindMap Str
  pauseLabelOk : Bool
  resumeLabelOk : Bool
  statusLabelOk : Bool
  vacated : KindMap Bool
deriving DecidableEq

/-- The five values written by the pause label update of
`_evict_gpu_operator_components`. -/
def pauseVals (d : KindMap Str) : KindMap Str :=
  ⟨_maybe_set_paused d.vfio, _maybe_set_paused d.vgpu,
   _maybe_set_paused d.sandboxValidator, _maybe_set_paused d.sandboxPlugin,
   _maybe_set_paused d.vgpuDeviceManager⟩

/-- The five values written by the resume label update of
`_reschedule_gpu_operator_components`; it is computed from the values
captured by `_fetch_current_labels`, not from the paused values. -/
def resumeVals (d : KindMap Str) : KindMap Str :=
  ⟨_maybe_set_true d.vfio, _maybe_set_true d.vgpu,
   _maybe_set_true d.sandboxValidator, _maybe_set_true d.sandboxPlugin,
   _maybe_set_true d.vgpuDeviceManager⟩

/-- The `kubectl wait` calls issued after the pause label update, one
per kind whose captured label value is non-empty, in script order.  The
script runs each wait bare inside an `if` on the captured value; the
wait's own exit status is never examined. -/
def waitEvents (d : KindMap Str) : List Ev :=
  (if d.vfio = [] then [] else [Ev.waitPods Kind.vfioManager]) ++
  (if d.vgpu = [] then [] else [Ev.waitPods Kind.vgpuManager]) ++
  (if d.sandboxValidator = [] then [] else [Ev.waitPods Kind.sandboxValidator]) ++
  (if d.sandboxPlugin = [] then [] else [Ev.waitPods Kind.sandboxPlugin]) ++
  (if d.vgpuDeviceManager = [] then [] else [Ev.waitPods Kind.vgpuDeviceManager])

/-- Embeds `_reschedule_gpu_operator_components`: one kubectl label
update writing the resume values; returns whether it succeeded. -/
def _reschedule_gpu_operator_components (resumeOk : Bool) (d : KindMap Str) :
    Bool × List Ev :=
  (resumeOk, [Ev.labelResume resumeOk (resumeVals d)])

/-- Embeds `_exit_failed`: reschedule all operands, then `exit 1`.  The
returned events are those of the embedded reschedule. -/
def _exit_failed (resumeOk : Bool) (d : KindMap Str) : List Ev :=
  (_reschedule_gpu_operator_components resumeOk d).2

/-- Embeds `_evict_gpu_operator_components`: the pause label update for
all five kinds, then, only if that kubectl invocation succeeded, the
per-kind waits.  Returns `false` (the script's `return 1`) exactly when
the label update failed; the wait statuses are not consulted. -/
def _evict_gpu_operator_components (pauseOk : Bool) (d : KindMap Str) :
    Bool × List Ev :=
  if pauseOk then
    (true, Ev.labelPause true (pauseVals d) :: waitEvents d)
  else
    (false, [Ev.labelPause false (pauseVals d)])

/-- Embeds `_assert_gpu_cc_mode` on one query result `q`: a query tool
failure raises `_exit_failed`; a parse failure or a differing mode is
`return 1`; otherwise the mode is asserted. -/
def _assert_gpu_cc_mode (bdf : Str) (q : ToolOut) (mode : Str) :
    ARes × List Ev :=
  match q with
  | .fail => (.exitFailed, [Ev.queryTool bdf])
  | .out tok =>
    match _parse_mode tok with
    | none => (.no, [Ev.queryTool bdf])
    | some m => if m = mode then (.ok, [Ev.queryTool bdf]) else (.no, [Ev.queryTool bdf])

/-- Embeds `_assert_cc_mode`: assert the mode on every GPU in order,
stopping at the first failure. -/
def _assert_cc_mode (gpus : List Gpu) (mode : Str) : ARes × List Ev :=
  match gpus with
  | [] => (.ok, [])
  | g :: rest =>
    let r := _assert_gpu_cc_mode g.bdf g.queryRes mode
    match r.1 with
    | .ok =>
      let r2 := _assert_cc_mode rest mode
      (r2.1, r.2 ++ r2.2)
    | x => (x, r.2)

/-- Embeds `set_gpu_cc_mode` (the per-device applier): assert the
current mode (stop successfully on a match), otherwise invoke the
combined set-and-reset tool call and reassert. -/
def set_gpu_cc_mode (g : Gpu) (mode : Str) : DRes × List Ev :=
  let a := _assert_gpu_cc_mode g.bdf g.queryRes mode
  match a.1 with
  | .exitFailed => (.exitFailed, a.2)
  | .ok => (.ok, a.2)
  | .no =>
    let ev := a.2 ++ [Ev.setTool g.bdf mode]
    if g.setOk then
      let a2 := _assert_gpu_cc_mode g.bdf g.queryAfter mode
      match a2.1 with
      | .exitFailed => (.exitFailed, ev ++ a2.2)
      | .ok => (.ok, ev ++ a2.2)
      | .no => (.retFail, ev ++ a2.2)
    else (.retFail, ev)

/-- How processing one device inside the loop of `set_cc_mode` ends:
the device succeeded (`done`), it failed on a path that writes the
`failed` status label first (`failedStatus`: `set_gpu_cc_mode`
returned 1), or it failed on a path that exits without any status
write (`failedNoStatus`: unbind failure, or a query tool failure
inside the nested assert). -/
inductive DevStep
  | done
  | failedStatus
  | failedNoStatus
deriving DecidableEq

/-- One iteration of the device loop of `set_cc_mode`: unbind the
device (unconditionally, before the applier's own assert), then run
`set_gpu_cc_mode`; a `return 1` from the applier additionally writes
the `failed` status label. -/
def applyDev (mode : Str) (statusOk : Bool) (g : Gpu) : DevStep × List Ev :=
  if g.unbindOk then
    let r := set_gpu_cc_mode g mode
    match r.1 with
    | .ok => (.done, Ev.unbind g.bdf :: r.2)
    | .retFail =>
      (.failedStatus,
       Ev.unbind g.bdf :: (r.2 ++ [Ev.labelStatus (str "failed") statusOk]))
    | .exitFailed => (.failedNoStatus, Ev.unbind g.bdf :: r.2)
  else (.failedNoStatus, [Ev.unbind g.bdf])

/-- The device loop of `set_cc_mode`: process the devices in order;
the first failing device triggers `_exit_failed` (reschedule, then
`exit 1`) and no further device is touched.  A `none` outcome means
the loop ran to completion. -/
def applyLoop (mode : Str) (statusOk resumeOk : Bool) (dep : KindMap Str) :
    List Gpu → Option Outcome × List Ev
  | [] => (none, [])
  | g :: rest =>
    let d := applyDev mode statusOk g
    match d.1 with
    | .done =>
      let rr := applyLoop mode statusOk resumeOk dep rest
      (rr.1, d.2 ++ rr.2)
    | _ => (some (Outcome.exited 1), d.2 ++ _exit_failed resumeOk dep)

/-- Embeds `set_cc_mode` (the all-devices cycle): trivial success on
zero devices; success without any mutation when every device already
asserts the desired mode; otherwise evict, apply per device, write the
status label, and reschedule. -/
def set_cc_mode (w : World) : Outcome × List Ev :=
  if w.gpus = [] then (.ret 0, [])
  else
    let a := _assert_cc_mode w.gpus w.ccMode
    match a.1 with
    | .ok => (.ret 0, a.2)
    | .exitFailed => (.exited 1, a.2 ++ _exit_failed w.resumeLabelOk w.deployed)
    | .no =>
      let e := _evict_gpu_operator_components w.pauseLabelOk w.deployed
      if e.1 then
        let l := applyLoop w.ccMode w.statusLabelOk w.resumeLabelOk w.deployed w.gpus
        match l.1 with
        | some oc => (oc, a.2 ++ e.2 ++ l.2)
        | none =>
          let st := Ev.labelStatus (str "success") w.statusLabelOk
          let r := _reschedule_gpu_operator_components w.resumeLabelOk w.deployed
          if r.1 then (.ret 0, a.2 ++ e.2 ++ l.2 ++ st :: r.2)
          else (.ret 1, a.2 ++ e.2 ++ l.2 ++ st :: r.2)
      else (.ret 1, a.2 ++ e.2)

/-- Embeds `get_gpu_cc_mode`: query one device and parse the mode
token; `none` is the script's `return 1`. -/
def get_gpu_cc_mode (g : Gpu) : Option Str :=
  match g.queryRes with
  | .fail => none
  | .out tok => _parse_mode tok

/-- The loop of `get_cc_mode`, threading the `mode` accumulator (the
previously seen mode, initially empty): any per-device failure or any
disagreement between devices is `return 1` (`none`). -/
def get_cc_mode_loop : List Gpu → Str → Option Str
  | [], mode => some mode
  | g :: rest, mode =>
    match get_gpu_cc_mode g with
    | none => none
    | some cur =>
      if mode ≠ [] ∧ cur ≠ mode then none
      else get_cc_mode_loop rest cur

/-- Embeds `get_cc_mode` (the all-devices query): with zero CC-capable
GPUs it reports `off` and succeeds; otherwise it reports the common
mode of all devices, failing on any query failure or disagreement. -/
def get_cc_mode (gpus : List Gpu) : Option Str :=
  if gpus = [] then some (str "off") else get_cc_mode_loop gpus []

/-- Embeds the watcher state of cmd/main.go: the mutex-protected pair
`(current, lastRead)` of `SyncableCCModeConfig`.  The process starts
with both fields empty. -/
structure SyncableCCModeConfig where
  current : String
  lastRead : String
deriving DecidableEq

/-- Embeds `SyncableCCModeConfig.Set`: record the new value in
`current` (and broadcast, waking any blocked `Get`). -/
def SyncableCCModeConfig.Set (m : SyncableCCModeConfig) (value : String) :
    SyncableCCModeConfig :=
  ⟨value, m.lastRead⟩

/-- Embeds `SyncableCCModeConfig.Get` in a sequential model: when
`lastRead == current` the call waits on the condition variable, which
is modeled as `none` (the call does not complete in the current
state); otherwise it advances `lastRead` to `current` and returns that
value. -/
def SyncableCCModeConfig.Get (m : SyncableCCModeConfig) :
    Option (String × SyncableCCModeConfig) :=
  if m.lastRead = m.current then none
  else some (m.current, ⟨m.current, m.current⟩)

/-- One operation of the two tasks sharing the watcher: the informer's
`Set`, or the reconciler loop's `Get`. -/
inductive WOp
  | set (v : String)
  | get
deriving DecidableEq

/-- Run a sequence of watcher operations from a given state,
collecting the values returned by the `Get` calls that complete (a
`Get` finding `lastRead == current` blocks and is modeled as not
completing within the trace). -/
def runOps : List WOp → SyncableCCModeConfig → SyncableCCModeConfig × List String
  | [], m => (m, [])
  | WOp.set v :: rest, m => runOps rest (m.Set v)
  | WOp.get :: rest, m =>
    match m.Get with
    | none => runOps rest m
    | some (v, m2) =>
      let r := runOps rest m2
      (r.1, v :: r.2)

/-- The arguments of the `Set` operations of a watcher trace. -/
def setArgs : List WOp → List String
  | [] => []
  | WOp.set v :: rest => v :: setArgs rest
  | WOp.get :: rest => setArgs rest

/-- The environment of the startup path of `start` in cmd/main.go: the
value of the node's `nvidia.com/cc.mode` label as read directly from
the node object (`none` when the label is absent), the
`--default-cc-mode` flag value, and whether the `runScript` invocation
of the initial apply would succeed. -/
structure StartEnv where
  labelValue : Option String
  defaultCCMode : String
  initialApplyOk : Bool
deriving DecidableEq

/-- Observable actions of the startup path: invocations of
`runScript` (one `set-cc-mode -a -m <mode>` run of cc-manager.sh). -/
inductive StartEv
  | runScript (mode : String)
deriving DecidableEq

/-- How the startup path ends: the process calls `os.Exit` with the
given code, or it reaches the watcher-driven `for` loop. -/
inductive StartRes
  | exitProcess (code : Nat)
  | enterWatchLoop
deriving DecidableEq

/-- Embeds the label-handling part of `start` in cmd/main.go (after
the clientset is built and the node object fetched): when the
`nvidia.com/cc.mode` label is absent or empty and a default mode is
configured, run one initial apply with the default and exit the
process on its failure; in every other case run no initial apply; then
enter the watch loop. -/
def start (e : StartEnv) : StartRes × List StartEv :=
  let emptyLabel : Bool :=
    match e.labelValue with
    | none => true
    | some v => v == ""
  if emptyLabel && !(e.defaultCCMode == "") then
    if e.initialApplyOk then (.enterWatchLoop, [StartEv.runScript e.defaultCCMode])
    else (.exitProcess 1, [StartEv.runScript e.defaultCCMode])
  else (.enterWatchLoop, [])

/-! String lemmas about the marker surgery of the pause/resume
transforms. -/

theorem stripAllGo_fuel (pat : Str) :
    ∀ (n m : Nat) (s : Str), s.length ≤ n → s.length ≤ m →
      stripAllGo n pat s = stripAllGo m pat s := by
  intro n
  induction n with
  | zero =>
    intro m s hn _
    have hs : s = [] := List.eq_nil_of_length_eq_zero (Nat.le_zero.mp hn)
    subst hs
    cases m <;> rfl
  | succ n ih =>
    intro m s hn hm
    cases s with
    | nil => cases m <;> rfl
    | cons c rest =>
      cases m with
      | zero => simp at hm
      | succ m' =>
        simp only [stripAllGo]
        by_cases h : pat ≠ [] ∧ leadsWith pat (c :: rest) = true
        · rw [if_pos h, if_pos h]
          have hp : 0 < pat.length := List.length_pos.mpr h.1
          apply ih
          · simp only [List.length_drop, List.length_cons]
            simp only [List.length_cons] at hn
            omega
          · simp only [List.length_drop, List.length_cons]
            simp only [List.length_cons] at hm
            omega
        · rw [if_neg h, if_neg h]
          simp only [List.cons.injEq, true_and]
          apply ih
          · simp only [List.length_cons] at hn
            omega
          · simp only [List.length_cons] at hm
            omega

theorem stripAll_cons_pos (pat : Str) (c : Char) (rest : Str)
    (hp : pat ≠ []) (hl : leadsWith pat (c :: rest) = true) :
    stripAll pat (c :: rest) = stripAll pat ((c :: rest).drop pat.length) := by
  have hstep : stripAll pat (c :: rest)
      = stripAllGo rest.length pat ((c :: rest).drop pat.length) := by
    unfold stripAll
    simp only [List.length_cons, stripAllGo, if_pos (And.intro hp hl)]
  rw [hstep]
  unfold stripAll
  apply stripAllGo_fuel
  · have hp1 : 0 < pat.length := List.length_pos.mpr hp
    simp only [List.length_drop, List.length_cons]
    omega
  · exact Nat.le_refl _

theorem stripAll_cons_neg (pat : Str) (c : Char) (rest : Str)
    (h : ¬(pat ≠ [] ∧ leadsWith pat (c :: rest) = true)) :
    stripAll pat (c :: rest) = c :: stripAll pat rest := by
  unfold stripAll
  simp only [List.length_cons, stripAllGo, if_neg h]

theorem leadsWith_iff (p : Str) : ∀ s : Str, leadsWith p s = true ↔ ∃ t, s = p ++ t := by
  induction p with
  | nil =>
    intro s
    simp [leadsWith]
  | cons a as ih =>
    intro s
    cases s with
    | nil =>
      simp [leadsWith]
    | cons b bs =>
      simp only [leadsWith, Bool.and_eq_true, beq_iff_eq, ih bs, List.cons_append,
        List.cons.injEq]
      constructor
      · rintro ⟨h1, t, h2⟩
        exact ⟨t, h1.symm, h2⟩
      · rintro ⟨t, h1, h2⟩
        exact ⟨h1.symm, t, h2⟩

theorem leadsWith_self (p : Str) : leadsWith p p = true :=
  (leadsWith_iff p p).mpr ⟨[], by simp⟩

theorem leadsWith_cons_ne (p : Str) (hp : p ≠ []) (c : Char) (hc : c ∉ p) (x : Str) :
    leadsWith p (c :: x) = false := by
  cases p with
  | nil => exact absurd rfl hp
  | cons a as =>
    have hac : (a == c) = false := by
      simp only [beq_eq_false_iff_ne, ne_eq]
      intro h
      exact hc (h ▸ List.mem_cons_self a as)
    simp [leadsWith, hac]

theorem leadsWith_skip_marker (p u : Str) (_hp : p ≠ []) (hund : '_' ∉ p)
    (hu : leadsWith p u = false) : leadsWith p (u ++ '_' :: p) = false := by
  by_contra hcon
  rw [Bool.not_eq_false] at hcon
  obtain ⟨t, ht⟩ := (leadsWith_iff p _).mp hcon
  rcases le_or_lt p.length u.length with hle | hgt
  · have h1 : (u ++ '_' :: p).take p.length = u.take p.length :=
      List.take_append_of_le_length hle
    have h2 : (p ++ t).take p.length = p := List.take_left p t
    rw [ht, h2] at h1
    have h4 : u = p ++ u.drop p.length := by
      conv_lhs => rw [← List.take_append_drop p.length u]
      rw [← h1]
    have : leadsWith p u = true := (leadsWith_iff p u).mpr ⟨u.drop p.length, h4⟩
    rw [hu] at this
    exact Bool.false_ne_true this
  · have h1 : (u ++ '_' :: p).drop u.length = '_' :: p := List.drop_left u _
    have h2 : (p ++ t).drop u.length = p.drop u.length ++ t :=
      List.drop_append_of_le_length (Nat.le_of_lt hgt)
    rw [ht, h2] at h1
    cases hd : p.drop u.length with
    | nil =>
      have := congrArg List.length hd
      simp only [List.length_drop, List.length_nil] at this
      omega
    | cons c cs =>
      rw [hd, List.cons_append, List.cons.injEq] at h1
      have hcp : c ∈ p := List.drop_subset u.length p (hd ▸ List.mem_cons_self c cs)
      rw [h1.1] at hcp
      exact hund hcp

theorem stripAll_whole (p : Str) (hp : p ≠ []) : stripAll p p = [] := by
  cases hcase : p with
  | nil => exact absurd hcase hp
  | cons a as =>
    rw [← hcase]
    rw [hcase, stripAll_cons_pos (a :: as) a as (hcase ▸ hp) (leadsWith_self (a :: as)),
      List.drop_length]
    rfl

theorem hasSub_cons_false (p : Str) (a : Char) (v : Str)
    (h : hasSub p (a :: v) = false) :
    leadsWith p (a :: v) = false ∧ hasSub p v = false := by
  have : (leadsWith p (a :: v) || hasSub p v) = false := h
  simpa [Bool.or_eq_false_iff] using this

theorem stripAll_append_marker (p : Str) (hp : p ≠ []) (hund : '_' ∉ p) :
    ∀ v : Str, hasSub p v = false → stripAll p (v ++ '_' :: p) = v ++ ['_'] := by
  intro v
  induction v with
  | nil =>
    intro _
    rw [List.nil_append, List.nil_append]
    rw [stripAll_cons_neg]
    · rw [stripAll_whole p hp]
    · intro hcon
      rw [leadsWith_cons_ne p hp '_' hund p] at hcon
      exact Bool.false_ne_true hcon.2
  | cons a v ih =>
    intro hsub
    obtain ⟨hlead, hrest⟩ := hasSub_cons_false p a v hsub
    rw [List.cons_append, stripAll_cons_neg, ih hrest, List.cons_append]
    intro hcon
    have hsk := leadsWith_skip_marker p (a :: v) hp hund hlead
    rw [List.cons_append] at hsk
    rw [hsk] at hcon
    exact Bool.false_ne_true hcon.2

theorem stripAll_id (p : Str) (_hp : p ≠ []) :
    ∀ v : Str, hasSub p v = false → stripAll p v = v := by
  intro v
  induction v with
  | nil => intro _; rfl
  | cons a v ih =>
    intro hsub
    obtain ⟨hlead, hrest⟩ := hasSub_cons_false p a v hsub
    rw [stripAll_cons_neg, ih hrest]
    intro hcon
    rw [hlead] at hcon
    exact Bool.false_ne_true hcon.2

theorem delUnderscore_id (v : Str) (h : '_' ∉ v) : delUnderscore v = v := by
  apply List.filter_eq_self.mpr
  intro a ha
  simp only [ne_eq, decide_not, Bool.not_eq_true', decide_eq_false_iff_not]
  intro hcon
  exact h (hcon ▸ ha)

theorem delUnderscore_append (a b : Str) :
    delUnderscore (a ++ b) = delUnderscore a ++ delUnderscore b :=
  List.filter_append a b

/-- Resume leaves a value alone when it carries neither the paused
marker nor an underscore (in particular it introduces no marker). -/
theorem maybe_set_true_id (v : Str) (hsub : hasSub pausedStr v = false)
    (hund : '_' ∉ v) : _maybe_set_true v = v := by
  by_cases h1 : v = str "false"
  · subst h1; decide
  by_cases h2 : v = pausedStr
  · subst h2
    have : hasSub pausedStr pausedStr = true := by decide
    rw [this] at hsub
    exact absurd hsub (by decide)
  unfold _maybe_set_true
  rw [if_neg h1, if_neg h2, stripAll_id pausedStr (by decide) v hsub,
    delUnderscore_id v hund]

/-! Lemmas about the event traces of the cycle. -/

theorem assert_gpu_events (b : Str) (q : ToolOut) (m : Str) :
    (_assert_gpu_cc_mode b q m).2 = [Ev.queryTool b] := by
  unfold _assert_gpu_cc_mode
  cases q with
  | fail => rfl
  | out tok =>
    cases hp : _parse_mode tok with
    | none => simp [hp]
    | some mm =>
      by_cases h : mm = m <;> simp [hp, h]

theorem assert_events (m : Str) :
    ∀ (gs : List Gpu) (e : Ev), e ∈ (_assert_cc_mode gs m).2 →
      ∃ b, e = Ev.queryTool b := by
  intro gs
  induction gs with
  | nil =>
    intro e he
    simp [_assert_cc_mode] at he
  | cons g rest ih =>
    intro e he
    rcases hq : (_assert_gpu_cc_mode g.bdf g.queryRes m).1 with _ | _ | _ <;>
      simp only [_assert_cc_mode, hq, assert_gpu_events, List.mem_append,
        List.mem_singleton] at he
    · rcases he with he | he
      · exact ⟨g.bdf, he⟩
      · exact ih e he
    · exact ⟨g.bdf, he⟩
    · exact ⟨g.bdf, he⟩

theorem assert_all_ok (m : Str) (hm : _is_valid_mode m = true) :
    ∀ gs : List Gpu, (∀ g ∈ gs, g.queryRes = ToolOut.out m) →
      (_assert_cc_mode gs m).1 = ARes.ok := by
  intro gs
  induction gs with
  | nil => intro _; rfl
  | cons g rest ih =>
    intro hall
    have hg : g.queryRes = ToolOut.out m := hall g (List.mem_cons_self g rest)
    have hgpu : (_assert_gpu_cc_mode g.bdf g.queryRes m).1 = ARes.ok := by
      rw [hg]
      simp [_assert_gpu_cc_mode, _parse_mode, hm]
    simp only [_assert_cc_mode, hgpu]
    exact ih fun g2 h2 => hall g2 (List.mem_cons_of_mem g h2)

theorem set_gpu_events (g : Gpu) (m : Str) :
    ∀ e ∈ (set_gpu_cc_mode g m).2,
      (∃ b, e = Ev.queryTool b) ∨ ∃ b mm, e = Ev.setTool b mm := by
  intro e he
  rcases hq : (_assert_gpu_cc_mode g.bdf g.queryRes m).1 with _ | _ | _
  case ok =>
    simp only [set_gpu_cc_mode, hq, assert_gpu_events, List.mem_singleton] at he
    exact Or.inl ⟨g.bdf, he⟩
  case exitFailed =>
    simp only [set_gpu_cc_mode, hq, assert_gpu_events, List.mem_singleton] at he
    exact Or.inl ⟨g.bdf, he⟩
  case no =>
    cases hs : g.setOk
    · simp only [set_gpu_cc_mode, hq, hs, Bool.false_eq_true, if_false,
        assert_gpu_events, List.mem_append, List.mem_singleton] at he
      rcases he with he | he
      · exact Or.inl ⟨g.bdf, he⟩
      · exact Or.inr ⟨g.bdf, m, he⟩
    · rcases hq2 : (_assert_gpu_cc_mode g.bdf g.queryAfter m).1 with _ | _ | _
      all_goals
        simp only [set_gpu_cc_mode, hq, hs, if_true, hq2, assert_gpu_events,
          List.mem_append, List.mem_singleton] at he
      all_goals
        rcases he with (he | he) | he
        · exact Or.inl ⟨g.bdf, he⟩
        · exact Or.inr ⟨g.bdf, m, he⟩
        · exact Or.inl ⟨g.bdf, he⟩

/-! Lemmas about the device loop of the cycle. -/

theorem exit_failed_events (rOk : Bool) (dep : KindMap Str) :
    _exit_failed rOk dep = [Ev.labelResume rOk (resumeVals dep)] := rfl

theorem status_notin_sgm (g : Gpu) (m v : Str) (ok : Bool) :
    Ev.labelStatus v ok ∉ (set_gpu_cc_mode g m).2 := by
  intro h
  rcases set_gpu_events g m _ h with ⟨b, hb⟩ | ⟨b, mm, hb⟩ <;> simp at hb

theorem applyDev_done_events (m : Str) (st : Bool) (g : Gpu)
    (h : (applyDev m st g).1 = DevStep.done) :
    (applyDev m st g).2 = Ev.unbind g.bdf :: (set_gpu_cc_mode g m).2 := by
  cases hu : g.unbindOk
  · simp [applyDev, hu, Bool.false_eq_true] at h
  · rcases hr : (set_gpu_cc_mode g m).1 with _ | _ | _ <;>
      simp [applyDev, hu, hr] at h ⊢

theorem applyDev_status_iff (m : Str) (st : Bool) (g : Gpu) :
    Ev.labelStatus (str "failed") st ∈ (applyDev m st g).2 ↔
      (applyDev m st g).1 = DevStep.failedStatus := by
  cases hu : g.unbindOk
  · simp [applyDev, hu, Bool.false_eq_true]
  · rcases hr : (set_gpu_cc_mode g m).1 with _ | _ | _
    · simp [applyDev, hu, hr, status_notin_sgm g m (str "failed") st]
    · simp [applyDev, hu, hr]
    · simp [applyDev, hu, hr, status_notin_sgm g m (str "failed") st]

theorem applyLoop_resume_of_fail (m : Str) (st rOk : Bool) (dep : KindMap Str) :
    ∀ (gs : List Gpu) (oc : Outcome), (applyLoop m st rOk dep gs).1 = some oc →
      Ev.labelResume rOk (resumeVals dep) ∈ (applyLoop m st rOk dep gs).2 := by
  intro gs
  induction gs with
  | nil =>
    intro oc h
    simp [applyLoop] at h
  | cons g rest ih =>
    intro oc h
    rcases hd : (applyDev m st g).1 with _ | _ | _
    · simp only [applyLoop, hd] at h ⊢
      exact List.mem_append_right _ (ih oc h)
    · simp only [applyLoop, hd]
      exact List.mem_append_right _ (by simp [exit_failed_events])
    · simp only [applyLoop, hd]
      exact List.mem_append_right _ (by simp [exit_failed_events])

/-- The concatenated per-device traces of a run of devices. -/
def loopEvs (m : Str) (st : Bool) : List Gpu → List Ev
  | [] => []
  | g :: rest => (applyDev m st g).2 ++ loopEvs m st rest

theorem applyLoop_done_append (m : Str) (st rOk : Bool) (dep : KindMap Str) :
    ∀ pre : List Gpu, (∀ p ∈ pre, (applyDev m st p).1 = DevStep.done) →
      ∀ rest : List Gpu,
        applyLoop m st rOk dep (pre ++ rest)
          = ((applyLoop m st rOk dep rest).1,
             loopEvs m st pre ++ (applyLoop m st rOk dep rest).2) := by
  intro pre
  induction pre with
  | nil =>
    intro _ rest
    simp [loopEvs]
  | cons p pre ih =>
    intro hall rest
    have hp : (applyDev m st p).1 = DevStep.done :=
      hall p (List.mem_cons_self p pre)
    simp only [List.cons_append, applyLoop, hp, List.append_eq]
    rw [ih (fun q hq => hall q (List.mem_cons_of_mem p hq)) rest]
    simp [loopEvs, List.append_assoc]

theorem applyLoop_fail_cons (m : Str) (st rOk : Bool) (dep : KindMap Str)
    (g : Gpu) (post : List Gpu) (hg : (applyDev m st g).1 ≠ DevStep.done) :
    applyLoop m st rOk dep (g :: post)
      = (some (Outcome.exited 1),
         (applyDev m st g).2 ++ [Ev.labelResume rOk (resumeVals dep)]) := by
  rcases hd : (applyDev m st g).1 with _ | _ | _
  · exact absurd hd hg
  · simp [applyLoop, hd, exit_failed_events]
  · simp [applyLoop, hd, exit_failed_events]

/-! Shape lemmas for the branches of `set_cc_mode`. -/

theorem scm_nil (w : World) (hg : w.gpus = []) :
    set_cc_mode w = (Outcome.ret 0, []) := by
  simp [set_cc_mode, hg]

theorem scm_allok (w : World) (hg : w.gpus ≠ [])
    (ha : (_assert_cc_mode w.gpus w.ccMode).1 = ARes.ok) :
    set_cc_mode w = (Outcome.ret 0, (_assert_cc_mode w.gpus w.ccMode).2) := by
  simp [set_cc_mode, hg, ha]

theorem scm_assert_exit (w : World) (hg : w.gpus ≠ [])
    (ha : (_assert_cc_mode w.gpus w.ccMode).1 = ARes.exitFailed) :
    set_cc_mode w = (Outcome.exited 1,
      (_assert_cc_mode w.gpus w.ccMode).2
        ++ [Ev.labelResume w.resumeLabelOk (resumeVals w.deployed)]) := by
  simp [set_cc_mode, hg, ha, exit_failed_events]

theorem scm_pause_fail (w : World) (hg : w.gpus ≠ [])
    (ha : (_assert_cc_mode w.gpus w.ccMode).1 = ARes.no)
    (hp : w.pauseLabelOk = false) :
    set_cc_mode w = (Outcome.ret 1,
      (_assert_cc_mode w.gpus w.ccMode).2
        ++ [Ev.labelPause false (pauseVals w.deployed)]) := by
  simp [set_cc_mode, hg, ha, _evict_gpu_operator_components, hp,
    Bool.false_eq_true]

theorem scm_loop_fail (w : World) (oc : Outcome) (hg : w.gpus ≠ [])
    (ha : (_assert_cc_mode w.gpus w.ccMode).1 = ARes.no)
    (hp : w.pauseLabelOk = true)
    (hl : (applyLoop w.ccMode w.statusLabelOk w.resumeLabelOk w.deployed
            w.gpus).1 = some oc) :
    set_cc_mode w = (oc,
      (_assert_cc_mode w.gpus w.ccMode).2
        ++ (Ev.labelPause true (pauseVals w.deployed) :: waitEvents w.deployed)
        ++ (applyLoop w.ccMode w.statusLabelOk w.resumeLabelOk w.deployed
              w.gpus).2) := by
  simp [set_cc_mode, hg, ha, _evict_gpu_operator_components, hp, hl]

theorem scm_success (w : World) (hg : w.gpus ≠ [])
    (ha : (_assert_cc_mode w.gpus w.ccMode).1 = ARes.no)
    (hp : w.pauseLabelOk = true)
    (hl : (applyLoop w.ccMode w.statusLabelOk w.resumeLabelOk w.deployed
            w.gpus).1 = none) :
    set_cc_mode w = ((if w.resumeLabelOk then Outcome.ret 0 else Outcome.ret 1),
      (_assert_cc_mode w.gpus w.ccMode).2
        ++ (Ev.labelPause true (pauseVals w.deployed) :: waitEvents w.deployed)
        ++ (applyLoop w.ccMode w.statusLabelOk w.resumeLabelOk w.deployed
              w.gpus).2
        ++ (Ev.labelStatus (str "success") w.statusLabelOk
              :: [Ev.labelResume w.resumeLabelOk (resumeVals w.deployed)])) := by
  cases hr : w.resumeLabelOk <;> rw [hr] at hl <;>
    simp [set_cc_mode, hg, ha, _evict_gpu_operator_components, hp, hl,
      _reschedule_gpu_operator_components, hr, Bool.false_eq_true]

/-! Lemmas about the watcher. -/

/-- A burst of consecutive `Set` calls with no intervening `Get`. -/
def Wfold (m : SyncableCCModeConfig) (vs : List String) : SyncableCCModeConfig :=
  vs.foldl SyncableCCModeConfig.Set m

theorem Wfold_lastRead : ∀ (vs : List String) (m : SyncableCCModeConfig),
    (Wfold m vs).lastRead = m.lastRead := by
  intro vs
  induction vs with
  | nil => intro m; rfl
  | cons v vs ih =>
    intro m
    show (Wfold (m.Set v) vs).lastRead = m.lastRead
    rw [ih]
    rfl

theorem Wfold_last (m : SyncableCCModeConfig) (vs : List String) (v : String) :
    Wfold m (vs ++ [v]) = ⟨v, m.lastRead⟩ := by
  unfold Wfold
  rw [List.foldl_append]
  show SyncableCCModeConfig.Set (Wfold m vs) v = _
  unfold SyncableCCModeConfig.Set
  rw [Wfold_lastRead]

theorem runOps_sound : ∀ (ops : List WOp) (m : SyncableCCModeConfig)
    (args0 : List String), (m.current ∈ args0 ∨ m.lastRead = m.current) →
    ∀ v ∈ (runOps ops m).2, v ∈ args0 ++ setArgs ops := by
  intro ops
  induction ops with
  | nil =>
    intro m args0 _ v hv
    simp [runOps] at hv
  | cons op rest ih =>
    intro m args0 hinv v hv
    cases op with
    | set u =>
      simp only [runOps] at hv
      have hmem := ih (m.Set u) (args0 ++ [u])
        (Or.inl (by simp [SyncableCCModeConfig.Set])) v hv
      simp only [setArgs, List.append_assoc, List.singleton_append] at hmem ⊢
      exact hmem
    | get =>
      simp only [runOps] at hv
      by_cases hc : m.lastRead = m.current
      · have hG : m.Get = none := by simp [SyncableCCModeConfig.Get, hc]
        rw [hG] at hv
        have hmem := ih m args0 hinv v hv
        simpa [setArgs] using hmem
      · have hG : m.Get = some (m.current, ⟨m.current, m.current⟩) := by
          simp [SyncableCCModeConfig.Get, hc]
        rw [hG] at hv
        simp only [List.mem_cons] at hv
        rcases hv with hv | hv
        · have hcur : m.current ∈ args0 := by
            rcases hinv with h | h
            · exact h
            · exact absurd h hc
          subst hv
          simpa [setArgs] using List.mem_append_left (setArgs rest) hcur
        · have hmem := ih ⟨m.current, m.current⟩ args0 (Or.inr rfl) v hv
          simpa [setArgs] using hmem

theorem status_notin_loopEvs (m : Str) (st : Bool) :
    ∀ pre : List Gpu, (∀ p ∈ pre, (applyDev m st p).1 = DevStep.done) →
      ∀ (v : Str) (ok : Bool), Ev.labelStatus v ok ∉ loopEvs m st pre := by
  intro pre
  induction pre with
  | nil =>
    intro _ v ok h
    simp [loopEvs] at h
  | cons p pre ih =>
    intro hall v ok h
    simp only [loopEvs, List.mem_append] at h
    rcases h with h | h
    · rw [applyDev_done_events m st p (hall p (List.mem_cons_self p pre))] at h
      simp only [List.mem_cons] at h
      rcases h with h | h
      · simp at h
      · exact status_notin_sgm p m v ok h
    · exact ih (fun q hq => hall q (List.mem_cons_of_mem p hq)) v ok h

/-! The claims. -/

set_option maxRecDepth 10000

/-- Claim C1 (counterexample): in a concrete world where the
vfio-manager workload does not vacate within the eviction timeout
(`vacated.vfio = false` although the kind is deployed), the cycle
nevertheless unbinds the device, invokes the set-and-reset tool,
writes a status label and reports success — it does not abort before
the device operations as the claim requires. -/
theorem C1_counterexample :
    (⟨[⟨str "d0", ToolOut.out (str "off"), true, true, ToolOut.out (str "on")⟩],
      str "on", ⟨str "true", str "true", str "true", str "true", str "true"⟩,
      true, true, true, ⟨false, true, true, true, true⟩⟩ : World).vacated.vfio = false
    ∧ (⟨[⟨str "d0", ToolOut.out (str "off"), true, true, ToolOut.out (str "on")⟩],
        str "on", ⟨str "true", str "true", str "true", str "true", str "true"⟩,
        true, true, true, ⟨false, true, true, true, true⟩⟩ : World).deployed.vfio ≠ []
    ∧ Ev.labelPause true (pauseVals ⟨str "true", str "true", str "true", str "true", str "true"⟩)
        ∈ (set_cc_mode ⟨[⟨str "d0", ToolOut.out (str "off"), true, true, ToolOut.out (str "on")⟩],
            str "on", ⟨str "true", str "true", str "true", str "true", str "true"⟩,
            true, true, true, ⟨false, true, true, true, true⟩⟩).2
    ∧ Ev.waitPods Kind.vfioManager
        ∈ (set_cc_mode ⟨[⟨str "d0", ToolOut.out (str "off"), true, true, ToolOut.out (str "on")⟩],
            str "on", ⟨str "true", str "true", str "true", str "true", str "true"⟩,
            true, true, true, ⟨false, true, true, true, true⟩⟩).2
    ∧ Ev.unbind (str "d0")
        ∈ (set_cc_mode ⟨[⟨str "d0", ToolOut.out (str "off"), true, true, ToolOut.out (str "on")⟩],
            str "on", ⟨str "true", str "true", str "true", str "true", str "true"⟩,
            true, true, true, ⟨false, true, true, true, true⟩⟩).2
    ∧ Ev.setTool (str "d0") (str "on")
        ∈ (set_cc_mode ⟨[⟨str "d0", ToolOut.out (str "off"), true, true, ToolOut.out (str "on")⟩],
            str "on", ⟨str "true", str "true", str "true", str "true", str "true"⟩,
            true, true, true, ⟨false, true, true, true, true⟩⟩).2
    ∧ Ev.labelStatus (str "success") true
        ∈ (set_cc_mode ⟨[⟨str "d0", ToolOut.out (str "off"), true, true, ToolOut.out (str "on")⟩],
            str "on", ⟨str "true", str "true", str "true", str "true", str "true"⟩,
            true, true, true, ⟨false, true, true, true, true⟩⟩).2
    ∧ (set_cc_mode ⟨[⟨str "d0", ToolOut.out (str "off"), true, true, ToolOut.out (str "on")⟩],
        str "on", ⟨str "true", str "true", str "true", str "true", str "true"⟩,
        true, true, true, ⟨false, true, true, true, true⟩⟩).1 = Outcome.ret 0 := by
  exact ⟨rfl, by decide, by decide, by decide, by decide, by decide, by decide, by decide⟩

/-- Claim C1 (amended): the script never examines the exit status of
the per-kind `kubectl wait` calls, so whether the dependent workloads
vacate within the eviction timeout has no influence whatsoever on the
cycle: outcome and event trace are identical for any two wait
outcomes. -/
theorem C1_wait_ignored (w : World) (f f2 : KindMap Bool) :
    set_cc_mode
        ⟨w.gpus, w.ccMode, w.deployed, w.pauseLabelOk, w.resumeLabelOk,
         w.statusLabelOk, f⟩
      = set_cc_mode
        ⟨w.gpus, w.ccMode, w.deployed, w.pauseLabelOk, w.resumeLabelOk,
         w.statusLabelOk, f2⟩ := rfl

/-- Claim C2 (counterexample): the bare paused marker is a
ComponentState value, and Resume (Pause marker) is the string `true`,
not the marker, so the round trip fails on it. -/
theorem C2_counterexample :
    _maybe_set_true (_maybe_set_paused pausedStr) = str "true"
      ∧ _maybe_set_true (_maybe_set_paused pausedStr) ≠ pausedStr := by
  exact ⟨by decide, by decide⟩

/-- Claim C2 (amended): Resume (Pause v) = v holds for every value
that contains neither the paused marker nor an underscore (this covers
empty, `false`, `true` and marker-free underscore-free pinned
strings); values already carrying the marker, and pinned strings with
an underscore, are mangled by the `sed`/`tr -d "_"` inverse. -/
theorem C2_roundtrip (v : Str) (hsub : hasSub pausedStr v = false)
    (hund : '_' ∉ v) : _maybe_set_true (_maybe_set_paused v) = v := by
  by_cases h0 : v = []
  · subst h0; decide
  by_cases h1 : v = str "false"
  · subst h1; decide
  by_cases h2 : v = str "true"
  · subst h2; decide
  have hpause : _maybe_set_paused v = v ++ '_' :: pausedStr := by
    unfold _maybe_set_paused
    rw [if_neg h0, if_neg h1, if_neg h2, if_neg]
    simp [hsub]
  rw [hpause]
  have hlenp : pausedStr.length = 25 := by decide
  have hne1 : v ++ '_' :: pausedStr ≠ str "false" := by
    intro hcon
    have hlen := congrArg List.length hcon
    have hlen5 : (str "false").length = 5 := by decide
    simp only [List.length_append, List.length_cons, hlenp, hlen5] at hlen
    omega
  have hne2 : v ++ '_' :: pausedStr ≠ pausedStr := by
    intro hcon
    have hlen := congrArg List.length hcon
    simp only [List.length_append, List.length_cons, hlenp] at hlen
    omega
  unfold _maybe_set_true
  rw [if_neg hne1, if_neg hne2,
    stripAll_append_marker pausedStr (by decide) (by decide) v hsub,
    delUnderscore_append, delUnderscore_id v hund]
  have hdel : delUnderscore ['_'] = [] := rfl
  rw [hdel, List.append_nil]

/-- Witness for C2: the pinned value `v1.0` satisfies both hypotheses
and survives the round trip. -/
theorem C2_roundtrip_witness :
    hasSub pausedStr (str "v1.0") = false ∧ '_' ∉ str "v1.0"
      ∧ _maybe_set_true (_maybe_set_paused (str "v1.0")) = str "v1.0" :=
  ⟨by decide, by decide, C2_roundtrip (str "v1.0") (by decide) (by decide)⟩

/-- Claim C3 (code evaluated at the failing input): in a cycle where
the single device successfully reaches the desired mode `on`, the
status label written is the literal `success`, which is none of the
four documented status values; every status write of this cycle
carries `success`. -/
theorem C3_success_label :
    (set_cc_mode ⟨[⟨str "e0", ToolOut.out (str "off"), true, true, ToolOut.out (str "on")⟩],
        str "on", ⟨str "true", str "true", str "true", str "true", str "true"⟩,
        true, true, true, ⟨true, true, true, true, true⟩⟩).1 = Outcome.ret 0
    ∧ Ev.labelStatus (str "success") true
        ∈ (set_cc_mode ⟨[⟨str "e0", ToolOut.out (str "off"), true, true, ToolOut.out (str "on")⟩],
            str "on", ⟨str "true", str "true", str "true", str "true", str "true"⟩,
            true, true, true, ⟨true, true, true, true, true⟩⟩).2
    ∧ ((set_cc_mode ⟨[⟨str "e0", ToolOut.out (str "off"), true, true, ToolOut.out (str "on")⟩],
          str "on", ⟨str "true", str "true", str "true", str "true", str "true"⟩,
          true, true, true, ⟨true, true, true, true, true⟩⟩).2.all
        (fun e => match e with
          | Ev.labelStatus v _ => v == str "success"
          | _ => true)) = true
    ∧ str "success" ≠ str "on" ∧ str "success" ≠ str "off"
    ∧ str "success" ≠ str "devtools" ∧ str "success" ≠ str "failed" := by
  exact ⟨by decide, by decide, by decide, by decide, by decide, by decide, by decide⟩

/-- Claim C4: whenever a cycle's trace contains a successful pause
label update, it also contains the resume label update (computed from
the captured original values), on the success path and on every
failure path; and on originals free of the marker and of underscores
the resume transform writes back a value without the paused marker. -/
theorem C4_pause_resume :
    (∀ (w : World) (vals : KindMap Str),
        Ev.labelPause true vals ∈ (set_cc_mode w).2 →
          Ev.labelResume w.resumeLabelOk (resumeVals w.deployed)
            ∈ (set_cc_mode w).2)
  ∧ (∀ orig : Str, hasSub pausedStr orig = false → '_' ∉ orig →
        hasSub pausedStr (_maybe_set_true orig) = false) := by
  constructor
  · intro w vals hpause
    by_cases hg : w.gpus = []
    · rw [scm_nil w hg] at hpause
      simp at hpause
    rcases ha : (_assert_cc_mode w.gpus w.ccMode).1 with _ | _ | _
    · rw [scm_allok w hg ha] at hpause
      obtain ⟨b, hb⟩ := assert_events w.ccMode w.gpus _ hpause
      simp at hb
    · cases hp : w.pauseLabelOk
      · rw [scm_pause_fail w hg ha hp] at hpause
        rcases List.mem_append.mp hpause with h | h
        · obtain ⟨b, hb⟩ := assert_events w.ccMode w.gpus _ h
          simp at hb
        · simp at h
      · cases hl : (applyLoop w.ccMode w.statusLabelOk w.resumeLabelOk
            w.deployed w.gpus).1 with
        | none =>
          rw [scm_success w hg ha hp hl]
          exact List.mem_append_right _ (by simp)
        | some oc =>
          rw [scm_loop_fail w oc hg ha hp hl]
          exact List.mem_append_right _
            (applyLoop_resume_of_fail w.ccMode w.statusLabelOk w.resumeLabelOk
              w.deployed w.gpus oc hl)
    · rw [scm_assert_exit w hg ha]
      exact List.mem_append_right _ (by simp)
  · intro orig h1 h2
    rw [maybe_set_true_id orig h1 h2]
    exact h1

/-- Witness for C4: a concrete cycle whose trace contains the pause
update, and a concrete marker-free original. -/
theorem C4_pause_resume_witness :
    Ev.labelResume true
        (resumeVals ⟨str "true", str "true", str "true", str "true", str "true"⟩)
      ∈ (set_cc_mode ⟨[⟨str "f0", ToolOut.out (str "off"), true, true,
            ToolOut.out (str "on")⟩],
          str "on", ⟨str "true", str "true", str "true", str "true", str "true"⟩,
          true, true, true, ⟨true, true, true, true, true⟩⟩).2
    ∧ hasSub pausedStr (_maybe_set_true (str "v2")) = false :=
  ⟨C4_pause_resume.1
      ⟨[⟨str "f0", ToolOut.out (str "off"), true, true, ToolOut.out (str "on")⟩],
       str "on", ⟨str "true", str "true", str "true", str "true", str "true"⟩,
       true, true, true, ⟨true, true, true, true, true⟩⟩
      (pauseVals ⟨str "true", str "true", str "true", str "true", str "true"⟩)
      (by decide),
   C4_pause_resume.2 (str "v2") (by decide) (by decide)⟩

/-- Claim C5 (counterexample): on a device whose reassert query tool
invocation fails during the apply loop, the cycle aborts through
`_exit_failed` with no `failed` status write at all (the resume update
is still issued, and no further device is attempted), refuting the
claim that every first-device failure publishes status `failed`. -/
theorem C5_counterexample :
    Ev.setTool (str "d2") (str "on")
        ∈ (set_cc_mode ⟨[⟨str "d2", ToolOut.out (str "off"), true, true, ToolOut.fail⟩],
            str "on", ⟨str "true", str "true", str "true", str "true", str "true"⟩,
            true, true, true, ⟨true, true, true, true, true⟩⟩).2
    ∧ ((set_cc_mode ⟨[⟨str "d2", ToolOut.out (str "off"), true, true, ToolOut.fail⟩],
          str "on", ⟨str "true", str "true", str "true", str "true", str "true"⟩,
          true, true, true, ⟨true, true, true, true, true⟩⟩).2.all
        (fun e => match e with
          | Ev.labelStatus _ _ => false
          | _ => true)) = true
    ∧ Ev.labelResume true
        (resumeVals ⟨str "true", str "true", str "true", str "true", str "true"⟩)
        ∈ (set_cc_mode ⟨[⟨str "d2", ToolOut.out (str "off"), true, true, ToolOut.fail⟩],
            str "on", ⟨str "true", str "true", str "true", str "true", str "true"⟩,
            true, true, true, ⟨true, true, true, true, true⟩⟩).2
    ∧ (set_cc_mode ⟨[⟨str "d2", ToolOut.out (str "off"), true, true, ToolOut.fail⟩],
        str "on", ⟨str "true", str "true", str "true", str "true", str "true"⟩,
        true, true, true, ⟨true, true, true, true, true⟩⟩).1 = Outcome.exited 1 := by
  exact ⟨by decide, by decide, by decide, by decide⟩

/-- Claim C5 (amended): the first failing device of the apply loop
aborts the cycle with `exit 1`; the trace is exactly the traces of the
preceding (successful) devices, the failing device's own trace, and
the resume update — no later device is touched — and the `failed`
status label is written iff the failure is a `return 1` from
`set_gpu_cc_mode` (set tool failure, reassert parse failure or
mismatch), not when a query tool invocation or the unbind fails. -/
theorem C5_first_failure (m : Str) (st rOk : Bool) (dep : KindMap Str)
    (pre : List Gpu) (g : Gpu) (post : List Gpu)
    (hpre : ∀ p ∈ pre, (applyDev m st p).1 = DevStep.done)
    (hg : (applyDev m st g).1 ≠ DevStep.done) :
    applyLoop m st rOk dep (pre ++ g :: post)
        = (some (Outcome.exited 1),
           loopEvs m st pre
             ++ ((applyDev m st g).2 ++ [Ev.labelResume rOk (resumeVals dep)]))
      ∧ (Ev.labelStatus (str "failed") st
            ∈ (applyLoop m st rOk dep (pre ++ g :: post)).2
          ↔ (applyDev m st g).1 = DevStep.failedStatus) := by
  have h1 := applyLoop_done_append m st rOk dep pre hpre (g :: post)
  rw [applyLoop_fail_cons m st rOk dep g post hg] at h1
  refine ⟨h1, ?_⟩
  rw [h1]
  simp only [List.mem_append, List.mem_singleton]
  constructor
  · rintro (h | h | h)
    · exact absurd h (status_notin_loopEvs m st pre hpre (str "failed") st)
    · exact (applyDev_status_iff m st g).mp h
    · exact absurd h (by simp)
  · intro hfs
    exact Or.inr (Or.inl ((applyDev_status_iff m st g).mpr hfs))

/-- Witness for C5: one-element prefix-free loop whose head device
fails on the reassert query, with a second device behind it. -/
theorem C5_first_failure_witness :
    applyLoop (str "on") true true
        ⟨str "true", str "true", str "true", str "true", str "true"⟩
        ([] ++ (⟨str "g0", ToolOut.out (str "off"), true, true, ToolOut.fail⟩ : Gpu)
          :: [⟨str "g1", ToolOut.out (str "off"), true, true, ToolOut.out (str "on")⟩])
      = (some (Outcome.exited 1),
         loopEvs (str "on") true []
           ++ ((applyDev (str "on") true
                  ⟨str "g0", ToolOut.out (str "off"), true, true, ToolOut.fail⟩).2
             ++ [Ev.labelResume true
                  (resumeVals ⟨str "true", str "true", str "true", str "true",
                    str "true"⟩)])) :=
  (C5_first_failure (str "on") true true
    ⟨str "true", str "true", str "true", str "true", str "true"⟩ []
    ⟨str "g0", ToolOut.out (str "off"), true, true, ToolOut.fail⟩
    [⟨str "g1", ToolOut.out (str "off"), true, true, ToolOut.out (str "on")⟩]
    (by simp) (by decide)).1

/-- Claim C6 (counterexample): with two devices of which the second
already has the desired mode, the loop still unbinds the matching
device (unbind precedes the applier's query), even though no
set-and-reset call is made for it — refuting the claim that an
already-matching device stops before Unbind. -/
theorem C6_counterexample :
    (⟨str "c1", ToolOut.out (str "on"), true, true, ToolOut.out (str "on")⟩
        : Gpu).queryRes = ToolOut.out (str "on")
    ∧ Ev.unbind (str "c1")
        ∈ (set_cc_mode ⟨[⟨str "c0", ToolOut.out (str "off"), true, true,
              ToolOut.out (str "on")⟩,
            ⟨str "c1", ToolOut.out (str "on"), true, true, ToolOut.out (str "on")⟩],
            str "on", ⟨str "true", str "true", str "true", str "true", str "true"⟩,
            true, true, true, ⟨true, true, true, true, true⟩⟩).2
    ∧ Ev.setTool (str "c1") (str "on")
        ∉ (set_cc_mode ⟨[⟨str "c0", ToolOut.out (str "off"), true, true,
              ToolOut.out (str "on")⟩,
            ⟨str "c1", ToolOut.out (str "on"), true, true, ToolOut.out (str "on")⟩],
            str "on", ⟨str "true", str "true", str "true", str "true", str "true"⟩,
            true, true, true, ⟨true, true, true, true, true⟩⟩).2
    ∧ (set_cc_mode ⟨[⟨str "c0", ToolOut.out (str "off"), true, true,
          ToolOut.out (str "on")⟩,
        ⟨str "c1", ToolOut.out (str "on"), true, true, ToolOut.out (str "on")⟩],
        str "on", ⟨str "true", str "true", str "true", str "true", str "true"⟩,
        true, true, true, ⟨true, true, true, true, true⟩⟩).1 = Outcome.ret 0 := by
  exact ⟨rfl, by decide, by decide, by decide⟩

/-- Claim C6 (amended): inside the loop the unbind comes first,
unconditionally (the trace of one device step begins with the unbind
event); the applier then queries, stops successfully without the
set-and-reset call when the parsed mode equals the desired one, and
otherwise issues the single combined set-and-reset call and requeries,
succeeding iff the reasserted mode parses to the desired mode,
returning failure on a reassert mismatch or parse failure, and exiting
on a reassert query tool failure. -/
theorem C6_applier (g : Gpu) (m : Str) (st : Bool) :
    ((applyDev m st g).2.head? = some (Ev.unbind g.bdf))
  ∧ (∀ tok, g.queryRes = ToolOut.out tok → _parse_mode tok = some m →
      set_gpu_cc_mode g m = (DRes.ok, [Ev.queryTool g.bdf]))
  ∧ (∀ tok, g.queryRes = ToolOut.out tok → _parse_mode tok ≠ some m →
      g.setOk = true →
        ((∀ tok2, g.queryAfter = ToolOut.out tok2 → _parse_mode tok2 = some m →
            set_gpu_cc_mode g m
              = (DRes.ok, [Ev.queryTool g.bdf, Ev.setTool g.bdf m,
                  Ev.queryTool g.bdf]))
        ∧ (∀ tok2, g.queryAfter = ToolOut.out tok2 → _parse_mode tok2 ≠ some m →
            set_gpu_cc_mode g m
              = (DRes.retFail, [Ev.queryTool g.bdf, Ev.setTool g.bdf m,
                  Ev.queryTool g.bdf]))
        ∧ (g.queryAfter = ToolOut.fail →
            set_gpu_cc_mode g m
              = (DRes.exitFailed, [Ev.queryTool g.bdf, Ev.setTool g.bdf m,
                  Ev.queryTool g.bdf]))))
  ∧ (∀ tok, g.queryRes = ToolOut.out tok → _parse_mode tok ≠ some m →
      g.setOk = false →
        set_gpu_cc_mode g m
          = (DRes.retFail, [Ev.queryTool g.bdf, Ev.setTool g.bdf m])) := by
  have hno : ∀ tok : Str, _parse_mode tok ≠ some m →
      _assert_gpu_cc_mode g.bdf (ToolOut.out tok) m
        = (ARes.no, [Ev.queryTool g.bdf]) := by
    intro tok hp
    unfold _assert_gpu_cc_mode
    cases hpp : _parse_mode tok with
    | none => simp [hpp]
    | some mm =>
      have hmm : mm ≠ m := fun hc => hp (by rw [hpp, hc])
      simp [hpp, hmm]
  have hok : ∀ tok : Str, _parse_mode tok = some m →
      _assert_gpu_cc_mode g.bdf (ToolOut.out tok) m
        = (ARes.ok, [Ev.queryTool g.bdf]) := by
    intro tok hp
    unfold _assert_gpu_cc_mode
    simp [hp]
  refine ⟨?_, ?_, ?_, ?_⟩
  · cases hu : g.unbindOk
    · simp [applyDev, hu, Bool.false_eq_true]
    · rcases hr : (set_gpu_cc_mode g m).1 with _ | _ | _ <;>
        simp [applyDev, hu, hr]
  · intro tok hq hp
    simp [set_gpu_cc_mode, hq, hok tok hp]
  · intro tok hq hp hset
    refine ⟨?_, ?_, ?_⟩
    · intro tok2 hq2 hp2
      simp [set_gpu_cc_mode, hq, hno tok hp, hset, hq2, hok tok2 hp2]
    · intro tok2 hq2 hp2
      simp [set_gpu_cc_mode, hq, hno tok hp, hset, hq2, hno tok2 hp2]
    · intro hq2
      have hfail : _assert_gpu_cc_mode g.bdf ToolOut.fail m
          = (ARes.exitFailed, [Ev.queryTool g.bdf]) := rfl
      simp [set_gpu_cc_mode, hq, hno tok hp, hset, hq2, hfail]
  · intro tok hq hp hset
    simp [set_gpu_cc_mode, hq, hno tok hp, hset, Bool.false_eq_true]

/-- Witness for C6: a device already in the desired mode is applied
without a set-and-reset call, and its loop step begins with the
unbind. -/
theorem C6_applier_witness :
    set_gpu_cc_mode
        ⟨str "h0", ToolOut.out (str "on"), true, true, ToolOut.out (str "on")⟩
        (str "on")
      = (DRes.ok, [Ev.queryTool (str "h0")])
    ∧ (applyDev (str "on") true
        ⟨str "h0", ToolOut.out (str "on"), true, true,
          ToolOut.out (str "on")⟩).2.head?
      = some (Ev.unbind (str "h0")) :=
  ⟨(C6_applier ⟨str "h0", ToolOut.out (str "on"), true, true,
      ToolOut.out (str "on")⟩ (str "on") true).2.1 (str "on") rfl (by decide),
   (C6_applier ⟨str "h0", ToolOut.out (str "on"), true, true,
      ToolOut.out (str "on")⟩ (str "on") true).1⟩

/-- Claim C7 (counterexample): with the target label present and set
to `on`, the startup performs no initial apply at all (the claim
requires exactly one apply with the value `on`). -/
theorem C7_counterexample :
    (start ⟨some "on", "off", true⟩).2 = []
      ∧ (start ⟨some "on", "off", true⟩).2 ≠ [StartEv.runScript "on"]
      ∧ (start ⟨some "on", "off", true⟩).1 = StartRes.enterWatchLoop := by
  exact ⟨by decide, by decide, by decide⟩

/-- Claim C7 (amended): the startup performs an initial apply only
when the label is absent or empty and a default mode is configured; in
that case the apply uses the default value and the process terminates
iff that apply fails; in every other case no initial apply runs and
the watch loop is entered directly. -/
theorem C7_initial_apply (e : StartEnv) :
    ((e.labelValue = none ∨ e.labelValue = some "") → e.defaultCCMode ≠ "" →
        (start e).2 = [StartEv.runScript e.defaultCCMode]
          ∧ (start e).1
              = (if e.initialApplyOk then StartRes.enterWatchLoop
                 else StartRes.exitProcess 1))
  ∧ (((∃ v, e.labelValue = some v ∧ v ≠ "") ∨ e.defaultCCMode = "") →
        (start e).2 = [] ∧ (start e).1 = StartRes.enterWatchLoop) := by
  constructor
  · intro hempty hd
    have hd2 : (e.defaultCCMode == "") = false := by simpa using hd
    rcases hempty with h | h
    · cases hok : e.initialApplyOk <;> simp [start, h, hd2, hok]
    · cases hok : e.initialApplyOk <;> simp [start, h, hd2, hok]
  · intro hother
    rcases hother with ⟨v, hv, hne⟩ | hd
    · have he : (v == "") = false := by simpa using hne
      simp [start, hv, he]
    · simp [start, hd]

/-- Witness for C7: an absent label with default `on` and a failing
initial apply, and a present non-empty label. -/
theorem C7_initial_apply_witness :
    ((start ⟨none, "on", false⟩).2 = [StartEv.runScript "on"]
        ∧ (start ⟨none, "on", false⟩).1
            = (if (⟨none, "on", false⟩ : StartEnv).initialApplyOk
               then StartRes.enterWatchLoop else StartRes.exitProcess 1))
      ∧ ((start ⟨some "on", "off", true⟩).2 = []
        ∧ (start ⟨some "on", "off", true⟩).1 = StartRes.enterWatchLoop) :=
  ⟨(C7_initial_apply ⟨none, "on", false⟩).1 (Or.inl rfl) (by decide),
   (C7_initial_apply ⟨some "on", "off", true⟩).2
     (Or.inl ⟨"on", rfl, by decide⟩)⟩

/-- Claim C8: after any burst of Set calls ending in `v` with no
intervening Get, the watcher's `current` is exactly `v` and `lastRead`
is untouched, and a completing Get returns exactly `v` (intermediate
values are coalesced away); furthermore every value ever returned by a
Get in a run from the initial state was the argument of some previous
Set. -/
theorem C8_watcher :
    (∀ (m : SyncableCCModeConfig) (vs : List String) (v : String),
        (Wfold m (vs ++ [v])).current = v
          ∧ (Wfold m (vs ++ [v])).lastRead = m.lastRead
          ∧ (v ≠ m.lastRead →
              (Wfold m (vs ++ [v])).Get = some (v, ⟨v, v⟩)))
  ∧ (∀ (ops : List WOp) (v : String),
        v ∈ (runOps ops ⟨"", ""⟩).2 → v ∈ setArgs ops) := by
  constructor
  · intro m vs v
    rw [Wfold_last m vs v]
    refine ⟨rfl, rfl, fun hne => ?_⟩
    unfold SyncableCCModeConfig.Get
    rw [if_neg fun h => hne h.symm]
  · intro ops v hv
    have hmem := runOps_sound ops ⟨"", ""⟩ [] (Or.inr rfl) v hv
    simpa using hmem

/-- Witness for C8: a two-Set burst coalesces to the last value, and a
returned value was previously Set. -/
theorem C8_watcher_witness :
    (Wfold ⟨"", ""⟩ (["a"] ++ ["b"])).Get = some ("b", ⟨"b", "b"⟩)
      ∧ "x" ∈ setArgs [WOp.set "x", WOp.get] :=
  ⟨(C8_watcher.1 ⟨"", ""⟩ ["a"] "b").2.2 (by decide),
   C8_watcher.2 [WOp.set "x", WOp.get] "x" (by decide)⟩

/-- Claim C9: a cycle whose desired mode is valid and already asserted
by every device succeeds with `return 0` and its trace consists of
query events only — no unbind, no set-and-reset, no pause or resume
label update, no status write. -/
theorem C9_idempotent (w : World) (hm : _is_valid_mode w.ccMode = true)
    (hall : ∀ g ∈ w.gpus, g.queryRes = ToolOut.out w.ccMode) :
    (set_cc_mode w).1 = Outcome.ret 0
      ∧ ∀ e ∈ (set_cc_mode w).2, ∃ b, e = Ev.queryTool b := by
  by_cases hg : w.gpus = []
  · rw [scm_nil w hg]
    exact ⟨rfl, by simp⟩
  · have ha := assert_all_ok w.ccMode hm w.gpus hall
    rw [scm_allok w hg ha]
    exact ⟨rfl, fun e he => assert_events w.ccMode w.gpus e he⟩

/-- Witness for C9: one device already in mode `off`. -/
theorem C9_idempotent_witness :
    (set_cc_mode ⟨[⟨str "a0", ToolOut.out (str "off"), true, true,
        ToolOut.out (str "off")⟩],
      str "off", ⟨str "true", str "true", str "true", str "true", str "true"⟩,
      true, true, true, ⟨true, true, true, true, true⟩⟩).1 = Outcome.ret 0 :=
  (C9_idempotent
    ⟨[⟨str "a0", ToolOut.out (str "off"), true, true, ToolOut.out (str "off")⟩],
     str "off", ⟨str "true", str "true", str "true", str "true", str "true"⟩,
     true, true, true, ⟨true, true, true, true, true⟩⟩
    (by decide) (by decide)).1

/-- Claim C10: with zero CC-capable devices the all-devices query
succeeds and reports the mode `off`. -/
theorem C10_no_devices : get_cc_mode [] = some (str "off") := by decide

end CCManager
